import Mathlib

/-!
Shallow embedding of the Verity server (a PoW-based admission guard for
Altcha) — the data model, middleware chain and request handlers of
`server.go`, `rateLimit.go`, `utils.go`, `challengeManager.go` and
`routes.go`, as executable Lean definitions.

Modelling conventions:
* Go maps are total functions `String → Option α` (absence = `none`); maps
  whose Go reads use the zero value (`config.Stats`, `IPThrottleCount`) are
  total functions with implicit zero default.
* Clock instants and durations are abstract integers (milliseconds); every
  operation that reads `time.Now()` takes the instant as a parameter.
* `int64` counters are `Int`; no claim approaches the 2^63 overflow bound,
  so wrap-around is not modelled.
* External collaborators (base64 + JSON decoding from the standard library,
  `url.ParseQuery(...).Get`, the altcha PoW library's `CreateChallenge` and
  `VerifySolution`) are fields of an `Env` record of deterministic oracles;
  everything inside the repository's own files is translated directly.
-/

set_option maxHeartbeats 1000000

namespace Verity

/-- Pointwise update of a function-backed map. -/
def upd {α : Type} (m : String → α) (k : String) (v : α) : String → α :=
  fun k' => if k' = k then v else m k'

/-- `strings.TrimSpace` from the Go standard library: strip leading and
trailing whitespace (written structurally over the character list so that
it evaluates inside the kernel; the claims only exercise ASCII input). -/
def trimSpace (s : String) : String :=
  String.mk (((s.data.dropWhile Char.isWhitespace).reverse.dropWhile
    Char.isWhitespace).reverse)

/-- `strings.HasPrefix p s`-style check, structurally over the character
lists. -/
def strHasPre (p s : String) : Bool :=
  p.data.isPrefixOf s.data

/-- `strings.Split` for a one-character separator, structurally over the
character list (routes.go only ever splits on `"?"`). -/
def splitOnChar (sep : Char) : List Char → List (List Char)
  | [] => [[]]
  | c :: rest =>
    match splitOnChar sep rest with
    | [] => if c = sep then [[], []] else [[c]]
    | h :: t => if c = sep then [] :: h :: t else (c :: h) :: t

/-- `strings.Split s "?"` from routes.go. -/
def splitSaltParts (s : String) : List String :=
  (splitOnChar '?' s.data).map String.mk

/-- `ipRateLimit` from utils.go: rate limiting information for one IP. -/
structure IpRateLimit where
  count : Int
  resetAt : Int
deriving Repr, DecidableEq

/-- `StatsEntry` from server.go: statistics for one API key.  The
`IPThrottleCount` map is read with Go's zero default, hence a total map. -/
structure StatsEntry where
  totalChallenges : Int
  solvedChallenges : Int
  failedChallenges : Int
  ipThrottleCount : String → Int

/-- The Go zero value of `StatsEntry` (what `s.config.Stats[apiKey]`
returns for an unknown key). -/
def zeroStats : StatsEntry :=
  { totalChallenges := 0, solvedChallenges := 0, failedChallenges := 0,
    ipThrottleCount := fun _ => 0 }

/-- The mutable state of the process: the `Server` fields of server.go
(`config.Stats`, `ipRequestCount`, `ipLastRequest`), the `RateLimiter`'s
`ipLimits` map of rateLimit.go, and the `ChallengeManager`'s
`solvedChallenges` map of challengeManager.go. -/
structure ServerState where
  stats : String → StatsEntry
  ipRequestCount : String → Option Int
  ipLastRequest : String → Option Int
  rateLimits : String → Option IpRateLimit
  solved : String → Option Int

/-- The part of `ServerConfig` (config file, unnamed source part) the
request path reads: the API key registry, the base complexity, and the
already-parsed challenge expiry duration (`time.ParseDuration` of
`ExpireTime`; the 5-minute fallback of handleGetChallenge is folded into
this value, as both sides of that fallback yield a fixed duration). -/
structure Config where
  apiKeys : String → Option (List String)
  complexity : Int
  expireDuration : Int

/-- A JSON value as produced by `json.Unmarshal` into
`map[string]interface{}`.  The handler only ever asks whether a field is a
string, so non-string values are kept structureless (`composite` stands
for nested arrays/objects). -/
inductive JsonVal where
  | str : String → JsonVal
  | num : Int → JsonVal
  | boolean : Bool → JsonVal
  | null : JsonVal
  | composite : JsonVal
deriving Repr, DecidableEq

/-- Joint outcome of the two standard-library decoding steps of
handleVerifyChallenge: `base64.StdEncoding.DecodeString` followed by
`json.Unmarshal` into `map[string]interface{}`. -/
inductive DecodeOutcome where
  | badBase64 : DecodeOutcome
  | badJson : DecodeOutcome
  | parsed : List (String × JsonVal) → DecodeOutcome

/-- The external collaborators, as deterministic oracles:
* `decode` — base64 + JSON decoding of the request body;
* `queryGet` — `url.ParseQuery(q).Get(key)` (parse errors are discarded by
  the code, and `Get` returns `""` when the key is absent);
* `verifySol` — `altcha.VerifySolution(payload, hmacKey, true)` at a given
  instant (`none` = library error, `some b` = verdict);
* `createOk` — whether `altcha.CreateChallenge` succeeds for a given
  complexity and expiry. -/
structure Env where
  decode : String → DecodeOutcome
  queryGet : String → String → String
  verifySol : String → Int → Option Bool
  createOk : Int → Int → Bool

/-- The `Response` JSON body of server.go together with the HTTP status
actually written on the wire. -/
structure Reply where
  status : Int
  code : Int
  message : String
deriving Repr, DecidableEq

/-- `writeErrorResponse` from server.go: it calls `w.WriteHeader(status)`
but encodes the literal `Response{Code: 400, Message: message}` — the body
code is 400 regardless of `status`. -/
def writeErrorResponse (message : String) (status : Int) : Reply :=
  { status := status, code := 400, message := message }

/-- What a request handler writes back: a `Response` body (with its HTTP
status), a challenge JSON document (for successful issuance, carrying the
complexity it was built with), or a panic of the handler goroutine
(chi's Recoverer middleware turns it into a bare 500). -/
inductive Outcome where
  | reply : Reply → Outcome
  | challenge : Int → Outcome
  | panicked : Outcome
deriving Repr, DecidableEq

/-- `MaxRequestsPerIP` from rateLimit.go. -/
def maxRequestsPerIP : Int := 100

/-- `RequestLimitWindow` from rateLimit.go (10 minutes, in ms). -/
def requestLimitWindowMs : Int := 600000

/-- The 5-minute inactivity threshold of `getAdjustedComplexity` (ms). -/
def fiveMinutesMs : Int := 300000

/-- `LimitByIP` from utils.go.  The Go code mutates the stored
`*ipRateLimit` in place; here the updated store is returned.  Creation of
a missing entry, the window reset, and the increment are written exactly
as in the source; on the reject path the entry value is unchanged. -/
def limitByIP (ip : String) (limit window now : Int)
    (store : String → Option IpRateLimit) :
    Bool × (String → Option IpRateLimit) :=
  let info :=
    match store ip with
    | some i => i
    | none => { count := 0, resetAt := now + window }
  let info :=
    if now > info.resetAt then { count := 0, resetAt := now + window }
    else info
  if info.count ≥ limit then
    (false, upd store ip (some info))
  else
    (true, upd store ip (some { info with count := info.count + 1 }))

/-- Iterated `LimitByIP`: the admission verdicts for a sequence of
request instants from one address (one `RateLimitMiddleware` invocation
per request), threading the store through. -/
def runLimiter (ip : String) (limit window : Int) (ts : List Int)
    (store : String → Option IpRateLimit) :
    List Bool × (String → Option IpRateLimit) :=
  match ts with
  | [] => ([], store)
  | t :: rest =>
    let r := limitByIP ip limit window t store
    let rr := runLimiter ip limit window rest r.2
    (r.1 :: rr.1, rr.2)

/-- The body of `APIKeyMiddleware` from rateLimit.go up to handing off to
the inner handler: `some r` is the error reply it writes, `none` means the
request is admitted.  The Go code reads the `apiKey` query parameter
(`""` when missing) and the `Origin` header (`""` when absent). -/
def apiKeyCheck (cfg : Config) (apiKey origin : String) : Option Reply :=
  if apiKey = "" then
    some (writeErrorResponse "Missing API key" 401)
  else if ¬ strHasPre "vrty_" apiKey then
    some (writeErrorResponse "Invalid API key format" 401)
  else
    match cfg.apiKeys apiKey with
    | none => some (writeErrorResponse "Invalid API key" 401)
    | some allowedOrigins =>
      if validOrigin origin allowedOrigins then none
      else some (writeErrorResponse "Invalid origin" 403)
where
  /-- The origin loop of `APIKeyMiddleware`: `valid` stays false when the
  header is absent; otherwise any registered origin equal to the header,
  or a literal `*` entry, validates it. -/
  validOrigin (origin : String) (allowedOrigins : List String) : Bool :=
    if origin == "" then false
    else allowedOrigins.any fun allowedOrigin =>
      origin == allowedOrigin || allowedOrigin == "*"

/-- `getAdjustedComplexity` from server.go.  The Go expression
`int64(float64(complexity) * (1.0 + float64(count/10)*0.1))` is modelled
in exact arithmetic as `(complexity * (10 + count / 10)) / 10` (truncated
division; operands are positive on every path the config validator
admits, where `complexity > 0` and counts start at 0). -/
def getAdjustedComplexity (st : ServerState) (ip : String)
    (complexity now : Int) : Int × ServerState :=
  let count0 := (st.ipRequestCount ip).getD 0
  let hasEntry := (st.ipRequestCount ip).isSome
  let count :=
    match st.ipLastRequest ip with
    | some lastTime => if now - lastTime > fiveMinutesMs then 0 else count0
    | none => count0
  let st' : ServerState :=
    { st with
      ipRequestCount := upd st.ipRequestCount ip (some (count + 1)),
      ipLastRequest := upd st.ipLastRequest ip (some now) }
  if hasEntry && count > 10 then
    ((complexity * (10 + count / 10)) / 10, st')
  else
    (complexity, st')

/-- `strconv.ParseInt(s, 10, 64)`: optional sign, decimal digits only,
value within the int64 range. -/
def parseInt64 (s : String) : Option Int :=
  match s.data with
  | '-' :: rest =>
    match decDigits rest with
    | some n => if (n : Int) ≤ 2 ^ 63 then some (-(n : Int)) else none
    | none => none
  | '+' :: rest =>
    match decDigits rest with
    | some n => if (n : Int) ≤ 2 ^ 63 - 1 then some (n : Int) else none
    | none => none
  | cs =>
    match decDigits cs with
    | some n => if (n : Int) ≤ 2 ^ 63 - 1 then some (n : Int) else none
    | none => none
where
  /-- Decimal digit run; `none` on empty or non-digit input. -/
  decDigits (cs : List Char) : Option Nat :=
    if cs.isEmpty then none
    else if cs.all Char.isDigit then
      some (cs.foldl (fun a c => a * 10 + (c.toNat - 48)) 0)
    else none

/-- Result of the payload-parsing prefix of handleVerifyChallenge
(routes.go, from the base64 decode down to the `expires` check). -/
inductive VParse where
  | perr : Reply → VParse
  | panicked : VParse
  | ok : String → Int → VParse
deriving Repr, DecidableEq

/-- The parsing prefix of `handleVerifyChallenge` (routes.go): base64 and
JSON decoding, the checked `payload["challenge"].(string)` assertion, the
UNCHECKED `payload["salt"].(string)` assertion (which panics when the
field is absent or not a string), `strings.Split(salt, "?")` requiring at
least two pieces, and `strconv.ParseInt(params.Get("expires"), 10, 64)`
requiring a value ≥ 1. -/
def parseVerify (env : Env) (encodedPayload : String) : VParse :=
  match env.decode encodedPayload with
  | .badBase64 => .perr (writeErrorResponse "Invalid base64 encoding" 400)
  | .badJson => .perr (writeErrorResponse "Invalid JSON payload" 400)
  | .parsed payload =>
    match payload.lookup "challenge" with
    | some (.str challengeID) =>
      match payload.lookup "salt" with
      | some (.str salt) =>
        match splitSaltParts salt with
        | _ :: queryPart :: _ =>
          match parseInt64 (env.queryGet queryPart "expires") with
          | some challengeExpire =>
            if challengeExpire < 1 then
              .perr (writeErrorResponse "Invalid challenge format" 400)
            else
              .ok challengeID challengeExpire
          | none => .perr (writeErrorResponse "Invalid challenge format" 400)
        | _ => .perr (writeErrorResponse "Invalid challenge format" 400)
      | _ => .panicked
    | _ => .perr (writeErrorResponse "Invalid challenge format" 400)

/-- `handleVerifyChallenge` from routes.go, after the middleware attached
the API key.  The body is trimmed (`strings.TrimSpace`), parsed by
`parseVerify`, checked against the replay set (`cm.Exists`), then handed
to the collaborator; on `verified` the challenge is recorded
(`cm.AddChallenge`) and the solved counter incremented, else the failed
counter is incremented — and the failure body `Response{400, "Invalid
payload"}` is written WITHOUT `WriteHeader`, so its HTTP status is 200. -/
def handleVerify (env : Env) (st : ServerState) (apiKey : String)
    (now : Int) (body : String) : Outcome × ServerState :=
  let encodedPayload := trimSpace body
  match parseVerify env encodedPayload with
  | .perr r => (.reply r, st)
  | .panicked => (.panicked, st)
  | .ok challengeID challengeExpire =>
    if (st.solved challengeID).isSome then
      (.reply (writeErrorResponse "Challenge already solved" 409), st)
    else
      match env.verifySol encodedPayload now with
      | none => (.reply (writeErrorResponse "Verification error" 500), st)
      | some true =>
        let st1 : ServerState :=
          { st with solved := upd st.solved challengeID (some challengeExpire) }
        let stats := st1.stats apiKey
        let stats' : StatsEntry :=
          { stats with solvedChallenges := stats.solvedChallenges + 1 }
        let st2 : ServerState :=
          { st1 with stats := upd st1.stats apiKey stats' }
        (.reply { status := 200, code := 200, message := "OK" }, st2)
      | some false =>
        let stats := st.stats apiKey
        let stats' : StatsEntry :=
          { stats with failedChallenges := stats.failedChallenges + 1 }
        let st1 : ServerState :=
          { st with stats := upd st.stats apiKey stats' }
        (.reply { status := 200, code := 400, message := "Invalid payload" }, st1)

/-- `handleGetChallenge` from routes.go: compute the expiry, let the
Complexity Controller adjust (and mutate its per-IP state), delegate to
`altcha.CreateChallenge`; on success increment `TotalChallenges` and the
per-IP `IPThrottleCount`; on collaborator failure answer 500 with stats
untouched (the complexity state was already advanced). -/
def handleGetChallenge (cfg : Config) (env : Env) (st : ServerState)
    (apiKey ip : String) (now : Int) : Outcome × ServerState :=
  let expires := now + cfg.expireDuration
  let adj := getAdjustedComplexity st ip cfg.complexity now
  if env.createOk adj.1 expires then
    let stats := adj.2.stats apiKey
    let stats' : StatsEntry :=
      { stats with
        totalChallenges := stats.totalChallenges + 1,
        ipThrottleCount := upd stats.ipThrottleCount ip
          (stats.ipThrottleCount ip + 1) }
    (.challenge adj.1, { adj.2 with stats := upd adj.2.stats apiKey stats' })
  else
    (.reply (writeErrorResponse "Failed to create challenge" 500), adj.2)

/-- The route of a request: `GET /api/v1/challenge` or
`POST /api/v1/challenge/verify` with its raw body. -/
inductive ReqKind where
  | getChallenge : ReqKind
  | verifyChallenge : String → ReqKind
deriving Repr, DecidableEq

/-- One inbound request: the `apiKey` query parameter (`""` = missing),
the `Origin` header (`""` = absent), the resolved client address
(`GetRealIP`), and the arrival instant. -/
structure Request where
  apiKey : String
  origin : String
  ip : String
  now : Int
deriving Repr, DecidableEq

/-- The full middleware chain of main.go for one request:
`RateLimitMiddleware` (which updates the per-IP window counter and may
answer 429), then `APIKeyMiddleware` (401/403), then the route handler. -/
def processRequest (cfg : Config) (env : Env) (st : ServerState)
    (req : Request) (kind : ReqKind) : Outcome × ServerState :=
  let lr := limitByIP req.ip maxRequestsPerIP requestLimitWindowMs
    req.now st.rateLimits
  let st1 : ServerState := { st with rateLimits := lr.2 }
  if lr.1 then
    match apiKeyCheck cfg req.apiKey req.origin with
    | some r => (.reply r, st1)
    | none =>
      match kind with
      | .getChallenge => handleGetChallenge cfg env st1 req.apiKey req.ip req.now
      | .verifyChallenge body => handleVerify env st1 req.apiKey req.now body
  else
    (.reply (writeErrorResponse "Rate limit exceeded" 429), st1)

/-- `cleanupExpired` from challengeManager.go: one sweep at instant `now`
deletes exactly the entries whose stored value is `< now`. -/
def cleanupExpired (solved : String → Option Int) (now : Int) :
    String → Option Int :=
  fun challenge =>
    match solved challenge with
    | some val => if val < now then none else some val
    | none => none

/-- An observable event of the process: an inbound request, or one tick of
the `cleanupLoop` sweep at a given instant. -/
inductive Event where
  | request : Request → ReqKind → Event
  | sweep : Int → Event

/-- One step of the process: requests run the middleware pipeline, a sweep
tick runs `cleanupExpired` over the replay set. -/
def step (cfg : Config) (env : Env) (st : ServerState) (ev : Event) :
    ServerState :=
  match ev with
  | .request req kind => (processRequest cfg env st req kind).2
  | .sweep now => { st with solved := cleanupExpired st.solved now }

/-- Run a trace of events from a state. -/
def runTrace (cfg : Config) (env : Env) (st : ServerState)
    (evs : List Event) : ServerState :=
  evs.foldl (step cfg env) st

/-- A freshly started process: the stats come from the loaded config, all
other maps are created empty (`NewServer`, `NewRateLimiter`,
`NewChallengeManager`). -/
def initState (stats0 : String → StatsEntry) : ServerState :=
  { stats := stats0,
    ipRequestCount := fun _ => none,
    ipLastRequest := fun _ => none,
    rateLimits := fun _ => none,
    solved := fun _ => none }

/-! ### Concrete fixtures used by witnesses and counterexamples -/

/-- A payload as `json.Unmarshal` yields it for the document
`{"challenge":"c","salt":"abc?expires=99"}`. -/
def payloadC : List (String × JsonVal) :=
  [("challenge", .str "c"), ("salt", .str "abc?expires=99")]

/-- A concrete environment: the bodies `"BODY"` and `"BODYF"` both decode
to `payloadC`; `"BODYNS"` decodes to a document without a `salt` field;
the collaborator accepts exactly `"BODY"` and rejects everything else;
`url.ParseQuery("expires=99").Get("expires") = "99"`. -/
def envC : Env :=
  { decode := fun s =>
      if s == "BODY" || s == "BODYF" then .parsed payloadC
      else if s == "BODYNS" then .parsed [("challenge", .str "abc")]
      else .badBase64,
    queryGet := fun q k =>
      if q == "expires=99" && k == "expires" then "99" else "",
    verifySol := fun s _ => if s == "BODY" then some true else some false,
    createOk := fun _ _ => true }

/-- A concrete config registering one API key for one origin, with the
default base complexity and a 5-minute expiry. -/
def cfgC : Config :=
  { apiKeys := fun k => if k == "vrty_k" then some ["http://a"] else none,
    complexity := 50000,
    expireDuration := 300000 }

/-- A request carrying the registered key and its allowed origin. -/
def reqC : Request :=
  { apiKey := "vrty_k", origin := "http://a", ip := "1.2.3.4", now := 0 }

/-- A request with the `apiKey` query parameter missing. -/
def reqNoKey : Request :=
  { apiKey := "", origin := "http://a", ip := "1.2.3.4", now := 0 }

/-- A fresh process state whose loaded stats are all zero (the state of a
fresh install, whose config file starts with no recorded stats). -/
def freshState : ServerState := initState (fun _ => zeroStats)

/-- A state holding one replay entry, for the sweep theorems. -/
def stSweep : ServerState :=
  { freshState with solved := upd freshState.solved "c" (some 5) }

/-- Complexity-controller state: the address has 25 recent requests, last
seen at instant 1000. -/
def stCount25 : ServerState :=
  { freshState with
    ipRequestCount := upd freshState.ipRequestCount "1.2.3.4" (some 25),
    ipLastRequest := upd freshState.ipLastRequest "1.2.3.4" (some 1000) }

/-! ### Theorems -/

/-- The Complexity Controller only touches its own per-address maps: the
stats field is untouched by `getAdjustedComplexity`. -/
theorem getAdjusted_stats (st : ServerState) (ip : String) (c now : Int) :
    (getAdjustedComplexity st ip c now).2.stats = st.stats := by
  simp only [getAdjustedComplexity]
  split <;> rfl

/-- On every error reply of the verification handler (any non-200 HTTP
status: PayloadError, ReplayError, InternalError) the stats map is
unchanged; the panic path also leaves it unchanged. -/
theorem handleVerify_error_stats (env : Env) (st : ServerState)
    (apiKey : String) (now : Int) (body : String) (out : Outcome)
    (st2 : ServerState) (r : Reply)
    (hP : handleVerify env st apiKey now body = (out, st2))
    (ho : out = .reply r) (hs : r.status ≠ 200) :
    st2.stats = st.stats := by
  subst ho
  simp only [handleVerify] at hP
  split at hP
  · exact (Prod.mk.injEq .. ▸ hP).2 ▸ rfl
  · exact absurd (Prod.mk.injEq .. ▸ hP).1 (by simp)
  · split at hP
    · exact (Prod.mk.injEq .. ▸ hP).2 ▸ rfl
    · split at hP
      · exact (Prod.mk.injEq .. ▸ hP).2 ▸ rfl
      · rcases Prod.mk.injEq .. ▸ hP with ⟨h1, h2⟩
        exact absurd (congrArg Reply.status
          (Outcome.reply.injEq .. ▸ h1)).symm hs
      · rcases Prod.mk.injEq .. ▸ hP with ⟨h1, h2⟩
        exact absurd (congrArg Reply.status
          (Outcome.reply.injEq .. ▸ h1)).symm hs

/-- On the collaborator-failure (InternalError) path of issuance the stats
map is unchanged; a successful issuance is not a `Response` reply. -/
theorem handleGetChallenge_error_stats (cfg : Config) (env : Env)
    (st : ServerState) (apiKey ip : String) (now : Int) (out : Outcome)
    (st2 : ServerState) (r : Reply)
    (hP : handleGetChallenge cfg env st apiKey ip now = (out, st2))
    (ho : out = .reply r) :
    st2.stats = st.stats := by
  subst ho
  simp only [handleGetChallenge] at hP
  split at hP
  · exact absurd (Prod.mk.injEq .. ▸ hP).1 (by simp)
  · exact (Prod.mk.injEq .. ▸ hP).2 ▸ getAdjusted_stats ..

/-- Claim C1, amended part (proved): the per-key stats counters are
mutated only on a definitively determined outcome — on every request whose
response is a `Response` body with a non-200 HTTP status (the
PayloadError, AdmissionError, RateLimitError, ReplayError and
InternalError paths, statuses 400/401/403/409/429/500), the stats map is
unchanged.  (The only 200-status replies are the two definitive
verification outcomes, and successful issuance answers with a challenge
document, not a `Response` body.) -/
theorem error_reply_preserves_stats (cfg : Config) (env : Env)
    (st : ServerState) (req : Request) (kind : ReqKind) (r : Reply)
    (h : (processRequest cfg env st req kind).1 = .reply r)
    (hs : r.status ≠ 200) :
    (processRequest cfg env st req kind).2.stats = st.stats := by
  revert h
  rcases hP : processRequest cfg env st req kind with ⟨out, st2⟩
  intro h
  simp only at h ⊢
  subst h
  simp only [processRequest] at hP
  split at hP
  · split at hP
    · exact (Prod.mk.injEq .. ▸ hP).2 ▸ rfl
    · split at hP
      · have hres := handleGetChallenge_error_stats cfg env _ req.apiKey
          req.ip req.now _ st2 r hP rfl
        exact hres
      · have hres := handleVerify_error_stats env _ req.apiKey req.now _ _
          st2 r hP rfl hs
        exact hres
  · exact (Prod.mk.injEq .. ▸ hP).2 ▸ rfl

/-- The Complexity Controller never touches the replay set. -/
theorem getAdjusted_solved (st : ServerState) (ip : String) (c now : Int) :
    (getAdjustedComplexity st ip c now).2.solved = st.solved := by
  simp only [getAdjustedComplexity]
  split <;> rfl

/-- Issuance never touches the replay set. -/
theorem handleGetChallenge_solved (cfg : Config) (env : Env)
    (st : ServerState) (apiKey ip : String) (now : Int) :
    (handleGetChallenge cfg env st apiKey ip now).2.solved = st.solved := by
  simp only [handleGetChallenge]
  split
  · exact getAdjusted_solved ..
  · exact getAdjusted_solved ..

/-- If the verification handler leaves an identifier in the replay set, it
was either already there, or this very submission parsed to that
identifier and the collaborator verified it. -/
theorem handleVerify_solved_source (env : Env) (st : ServerState)
    (apiKey : String) (now : Int) (body : String) (out : Outcome)
    (st2 : ServerState) (id : String)
    (hP : handleVerify env st apiKey now body = (out, st2))
    (h : st2.solved id ≠ none) :
    st.solved id ≠ none ∨
      ∃ e, parseVerify env (trimSpace body) = .ok id e ∧
        env.verifySol (trimSpace body) now = some true := by
  simp only [handleVerify] at hP
  split at hP
  · left
    injection hP with h1 h2
    rw [← h2] at h
    exact h
  · left
    injection hP with h1 h2
    rw [← h2] at h
    exact h
  next cid ce hpv =>
    split at hP
    · left
      injection hP with h1 h2
      rw [← h2] at h
      exact h
    · split at hP
      · left
        injection hP with h1 h2
        rw [← h2] at h
        exact h
      next hv =>
        injection hP with h1 h2
        rw [← h2] at h
        simp only [upd] at h
        by_cases hid : id = cid
        · subst hid
          exact Or.inr ⟨ce, hpv, hv⟩
        · left
          simpa [hid] using h
      · left
        injection hP with h1 h2
        rw [← h2] at h
        exact h

/-- One step of the process inserts an identifier into the replay set only
off the back of a verification request whose payload parsed to that
identifier and which the collaborator verified as a valid solution. -/
theorem step_solved_source (cfg : Config) (env : Env) (st : ServerState)
    (ev : Event) (id : String)
    (h : (step cfg env st ev).solved id ≠ none) :
    st.solved id ≠ none ∨
      ∃ req body e, ev = Event.request req (.verifyChallenge body) ∧
        parseVerify env (trimSpace body) = .ok id e ∧
        env.verifySol (trimSpace body) req.now = some true := by
  cases ev with
  | sweep t =>
    left
    intro hn
    apply h
    simp only [step, cleanupExpired, hn]
  | request req kind =>
    simp only [step] at h
    rcases hP : processRequest cfg env st req kind with ⟨out, st2⟩
    rw [hP] at h
    simp only at h
    simp only [processRequest] at hP
    split at hP
    · split at hP
      · left
        injection hP with h1 h2
        rw [← h2] at h
        exact h
      · cases kind with
        | getChallenge =>
          left
          have hsol := congrArg (fun p => p.2.solved id) hP
          simp only [handleGetChallenge_solved] at hsol
          rw [← hsol] at h
          exact h
        | verifyChallenge body =>
          rcases handleVerify_solved_source env _ req.apiKey req.now body
              out st2 id hP h with h0 | ⟨e, hpv, hv⟩
          · exact Or.inl h0
          · exact Or.inr ⟨req, body, e, rfl, hpv, hv⟩
    · left
      injection hP with h1 h2
      rw [← h2] at h
      exact h

/-- Over a whole trace: any identifier present in the replay set at the
end was already present at the start, or some event of the trace was a
verification request whose payload parsed to that identifier and which
the collaborator verified. -/
theorem runTrace_solved_source (cfg : Config) (env : Env)
    (evs : List Event) :
    ∀ st id, (runTrace cfg env st evs).solved id ≠ none →
      st.solved id ≠ none ∨
        ∃ ev ∈ evs, ∃ req body e,
          ev = Event.request req (.verifyChallenge body) ∧
          parseVerify env (trimSpace body) = .ok id e ∧
          env.verifySol (trimSpace body) req.now = some true := by
  induction evs with
  | nil =>
    intro st id h
    left
    simpa [runTrace] using h
  | cons ev rest ih =>
    intro st id h
    have h' : (runTrace cfg env (step cfg env st ev) rest).solved id ≠
        none := by
      simpa [runTrace] using h
    rcases ih (step cfg env st ev) id h' with h0 | ⟨ev', hmem, hx⟩
    · rcases step_solved_source cfg env st ev id h0 with
        h1 | ⟨req, body, e, hev, hp, hv⟩
      · exact Or.inl h1
      · exact Or.inr ⟨ev, List.mem_cons_self .., req, body, e, hev, hp, hv⟩
    · exact Or.inr ⟨ev', List.mem_cons_of_mem _ hmem, hx⟩

/-- Claim C4 (confirmed): at every state reachable from process start
(the replay set starts empty in every process, whatever stats the config
carries), every identifier in the Replay Guard's set stems from an event
that was a verification request whose payload carried that identifier and
which the PoW collaborator verified as a valid solution — no malformed,
replayed, erroring or failed submission ever inserts. -/
theorem replay_guard_sound (cfg : Config) (env : Env)
    (stats0 : String → StatsEntry) (evs : List Event) (id : String)
    (h : (runTrace cfg env (initState stats0) evs).solved id ≠ none) :
    ∃ ev ∈ evs, ∃ req body e,
      ev = Event.request req (.verifyChallenge body) ∧
      parseVerify env (trimSpace body) = .ok id e ∧
      env.verifySol (trimSpace body) req.now = some true := by
  rcases runTrace_solved_source cfg env evs (initState stats0) id h with
    h0 | hx
  · exact absurd rfl h0
  · exact hx

/-- Witness for C4: after the one-event trace that successfully verifies
`"BODY"`, the identifier `"c"` is in the replay set, and the theorem
produces the verified submission behind it. -/
theorem replay_guard_sound_witness :
    ∃ ev ∈ [Event.request reqC (.verifyChallenge "BODY")], ∃ req body e,
      ev = Event.request req (.verifyChallenge body) ∧
      parseVerify envC (trimSpace body) = .ok "c" e ∧
      envC.verifySol (trimSpace body) req.now = some true :=
  replay_guard_sound cfgC envC (fun _ => zeroStats) _ "c" (by decide)

/-- Counterexample to claim C1 as stated: from a fresh state (all stats
zero — the state of a fresh install), a single verification request whose
well-formed payload fails PoW verification increments the failed counter
with no prior issuance, so `issued ≥ solved + failed` fails (0 ≥ 0 + 1):
the code never ties solved/failed increments to a prior issuance. -/
theorem issued_ge_solved_failed_cex :
    ¬ (let st := runTrace cfgC envC freshState
        [.request reqC (.verifyChallenge "BODYF")]
       (st.stats "vrty_k").totalChallenges ≥
         (st.stats "vrty_k").solvedChallenges +
           (st.stats "vrty_k").failedChallenges) := by
  decide

/-- Witness for the amended claim C1 at a concrete error path: the
401-rejected request of `reqNoKey` leaves the stats map unchanged. -/
theorem error_reply_preserves_stats_witness :
    (processRequest cfgC envC freshState reqNoKey .getChallenge).2.stats =
      freshState.stats :=
  error_reply_preserves_stats cfgC envC freshState reqNoKey .getChallenge
    (writeErrorResponse "Missing API key" 401) rfl (by decide)

/-- Counterexample to claim C10 as stated: a request with a missing
credential is answered 401, but the rate limiter — which runs before
credential validation in main.go's middleware chain — has already
incremented its per-address window counter for the rejected request
(absent entry before, count 1 after). -/
theorem rejected_request_counter_cex :
    (processRequest cfgC envC freshState reqNoKey .getChallenge).1 =
      .reply (writeErrorResponse "Missing API key" 401) ∧
    freshState.rateLimits "1.2.3.4" = none ∧
    (processRequest cfgC envC freshState reqNoKey .getChallenge).2.rateLimits
      "1.2.3.4" = some { count := 1, resetAt := 600000 } :=
  ⟨rfl, rfl, rfl⟩

/-- Claim C10, amended part (proved): a request whose credential is
missing, malformed (wrong ticket head) or unregistered — and which the
rate limiter admits — is answered 401 with body code 400, and neither the
credential stats counters, nor the complexity controller's per-address
state, nor the replay set change; only the rate limiter's own per-address
window counter (updated before credential validation) may change. -/
theorem auth_reject_frame (cfg : Config) (env : Env) (st : ServerState)
    (req : Request) (kind : ReqKind)
    (hallow : (limitByIP req.ip maxRequestsPerIP requestLimitWindowMs
      req.now st.rateLimits).1 = true)
    (hbad : req.apiKey = "" ∨ strHasPre "vrty_" req.apiKey = false ∨
      cfg.apiKeys req.apiKey = none) :
    ∃ r, (processRequest cfg env st req kind).1 = .reply r ∧
      r.status = 401 ∧ r.code = 400 ∧
      (processRequest cfg env st req kind).2.stats = st.stats ∧
      (processRequest cfg env st req kind).2.ipRequestCount =
        st.ipRequestCount ∧
      (processRequest cfg env st req kind).2.ipLastRequest =
        st.ipLastRequest ∧
      (processRequest cfg env st req kind).2.solved = st.solved := by
  have hk : ∃ msg, apiKeyCheck cfg req.apiKey req.origin =
      some (writeErrorResponse msg 401) := by
    by_cases h1 : req.apiKey = ""
    · exact ⟨"Missing API key", by simp [apiKeyCheck, h1]⟩
    · by_cases h2 : strHasPre "vrty_" req.apiKey = true
      · have h3 : cfg.apiKeys req.apiKey = none := by
          rcases hbad with h | h | h
          · exact absurd h h1
          · rw [h2] at h
            exact absurd h (by decide)
          · exact h
        exact ⟨"Invalid API key", by simp [apiKeyCheck, h1, h2, h3]⟩
      · exact ⟨"Invalid API key format", by simp [apiKeyCheck, h1, h2]⟩
  obtain ⟨msg, hk⟩ := hk
  refine ⟨writeErrorResponse msg 401, ?_⟩
  simp [processRequest, hallow, hk, writeErrorResponse]

/-- Witness for the amended claim C10 at a concrete input: the
missing-credential request is answered 401/400 and only the rate window
changes. -/
theorem auth_reject_frame_witness :
    ∃ r, (processRequest cfgC envC freshState reqNoKey .getChallenge).1 =
        .reply r ∧
      r.status = 401 ∧ r.code = 400 ∧
      (processRequest cfgC envC freshState reqNoKey .getChallenge).2.stats =
        freshState.stats ∧
      (processRequest cfgC envC freshState reqNoKey
        .getChallenge).2.ipRequestCount = freshState.ipRequestCount ∧
      (processRequest cfgC envC freshState reqNoKey
        .getChallenge).2.ipLastRequest = freshState.ipLastRequest ∧
      (processRequest cfgC envC freshState reqNoKey .getChallenge).2.solved =
        freshState.solved :=
  auth_reject_frame cfgC envC freshState reqNoKey .getChallenge rfl
    (Or.inl rfl)

/-- While the window boundary has not passed and the count headroom
suffices, every request is admitted and the count advances by one per
request, with the boundary unchanged. -/
theorem runLimiter_within (ip : String) (limit window : Int)
    (ts : List Int) :
    ∀ (c R : Int) (store : String → Option IpRateLimit),
      store ip = some { count := c, resetAt := R } →
      (∀ t ∈ ts, t ≤ R) → c + ts.length ≤ limit →
      (runLimiter ip limit window ts store).1 =
        List.replicate ts.length true ∧
      (runLimiter ip limit window ts store).2 ip =
        some { count := c + ts.length, resetAt := R } := by
  induction ts with
  | nil =>
    intro c R store hs _ _
    simpa [runLimiter] using hs
  | cons t rest ih =>
    intro c R store hs hts hc
    have ht : t ≤ R := hts t (List.mem_cons_self ..)
    have hlen : ((t :: rest).length : Int) = (rest.length : Int) + 1 := by
      simp
    have hstep : limitByIP ip limit window t store =
        (true, upd store ip (some { count := c + 1, resetAt := R })) := by
      have h1 : ¬ t > R := by omega
      have h2 : ¬ c ≥ limit := by
        rw [hlen] at hc
        have : (0 : Int) ≤ (rest.length : Int) := by positivity
        omega
      simp [limitByIP, hs, h1, h2]
    have hrest := ih (c + 1) R
      (upd store ip (some { count := c + 1, resetAt := R }))
      (by simp [upd])
      (fun t' ht' => hts t' (List.mem_cons_of_mem _ ht'))
      (by rw [hlen] at hc; omega)
    refine ⟨?_, ?_⟩
    · simp only [runLimiter, hstep, List.length_cons, List.replicate_succ]
      exact congrArg (true :: ·) hrest.1
    · simp only [runLimiter, hstep]
      rw [hrest.2]
      congr 1
      rw [IpRateLimit.mk.injEq]
      refine ⟨?_, rfl⟩
      rw [hlen]
      ring

/-- Claim C7 (confirmed): with ceiling 100 and a 10-minute window, from an
address with no window entry, the first request and the 99 following
requests within the window are all admitted (100 admissions), the 101st
request within the window is rejected, and the first request strictly
after the stored boundary is admitted with the count restarted (entry
`{count := 1}` against a fresh boundary). -/
theorem rate_limit_window (ip : String) (t1 : Int) (ts : List Int)
    (t101 tLater : Int) (store0 : String → Option IpRateLimit)
    (h0 : store0 ip = none) (hlen : ts.length = 99)
    (hts : ∀ t ∈ ts, t ≤ t1 + requestLimitWindowMs)
    (h101 : t101 ≤ t1 + requestLimitWindowMs)
    (hlater : tLater > t1 + requestLimitWindowMs) :
    (runLimiter ip maxRequestsPerIP requestLimitWindowMs (t1 :: ts)
      store0).1 = List.replicate 100 true ∧
    (limitByIP ip maxRequestsPerIP requestLimitWindowMs t101
      (runLimiter ip maxRequestsPerIP requestLimitWindowMs (t1 :: ts)
        store0).2).1 = false ∧
    (limitByIP ip maxRequestsPerIP requestLimitWindowMs tLater
      (limitByIP ip maxRequestsPerIP requestLimitWindowMs t101
        (runLimiter ip maxRequestsPerIP requestLimitWindowMs (t1 :: ts)
          store0).2).2).1 = true ∧
    (limitByIP ip maxRequestsPerIP requestLimitWindowMs tLater
      (limitByIP ip maxRequestsPerIP requestLimitWindowMs t101
        (runLimiter ip maxRequestsPerIP requestLimitWindowMs (t1 :: ts)
          store0).2).2).2 ip =
      some { count := 1, resetAt := tLater + requestLimitWindowMs } := by
  have hW : requestLimitWindowMs = 600000 := rfl
  have hM : maxRequestsPerIP = 100 := rfl
  set R := t1 + requestLimitWindowMs with hR
  set S1 := upd store0 ip (some { count := 1, resetAt := R }) with hS1
  have hr1 : limitByIP ip maxRequestsPerIP requestLimitWindowMs t1 store0 =
      (true, S1) := by
    have h1 : ¬ t1 > R := by rw [hR, hW]; omega
    have h2 : ¬ (0 : Int) ≥ maxRequestsPerIP := by rw [hM]; omega
    simp [limitByIP, h0, h1, h2, hS1]
  have hr2 := runLimiter_within ip maxRequestsPerIP requestLimitWindowMs ts
    1 R S1 (by rw [hS1]; simp [upd]) hts (by rw [hlen, hM]; norm_num)
  rw [hlen] at hr2
  norm_num at hr2
  have hfin1 : (runLimiter ip maxRequestsPerIP requestLimitWindowMs
      (t1 :: ts) store0).1 = List.replicate 100 true := by
    simp only [runLimiter, hr1]
    rw [hr2.1]
    rfl
  have hentry2 : (runLimiter ip maxRequestsPerIP requestLimitWindowMs
      (t1 :: ts) store0).2 ip =
      some { count := 100, resetAt := R } := by
    simp only [runLimiter, hr1]
    exact hr2.2
  have hr3 : limitByIP ip maxRequestsPerIP requestLimitWindowMs t101
      (runLimiter ip maxRequestsPerIP requestLimitWindowMs (t1 :: ts)
        store0).2 =
      (false, upd (runLimiter ip maxRequestsPerIP requestLimitWindowMs
        (t1 :: ts) store0).2 ip
        (some { count := 100, resetAt := R })) := by
    have h1 : ¬ t101 > R := by omega
    have h2 : (100 : Int) ≥ maxRequestsPerIP := by rw [hM]
    simp [limitByIP, hentry2, h1, h2]
  have hentry3 : (limitByIP ip maxRequestsPerIP requestLimitWindowMs t101
      (runLimiter ip maxRequestsPerIP requestLimitWindowMs (t1 :: ts)
        store0).2).2 ip = some { count := 100, resetAt := R } := by
    rw [hr3]
    simp [upd]
  have hr4 : limitByIP ip maxRequestsPerIP requestLimitWindowMs tLater
      (limitByIP ip maxRequestsPerIP requestLimitWindowMs t101
        (runLimiter ip maxRequestsPerIP requestLimitWindowMs (t1 :: ts)
          store0).2).2 =
      (true, upd (limitByIP ip maxRequestsPerIP requestLimitWindowMs t101
        (runLimiter ip maxRequestsPerIP requestLimitWindowMs (t1 :: ts)
          store0).2).2 ip
        (some { count := 1, resetAt := tLater + requestLimitWindowMs })) := by
    rw [hr3]
    have hst : upd (runLimiter ip maxRequestsPerIP requestLimitWindowMs
        (t1 :: ts) store0).2 ip (some { count := 100, resetAt := R }) ip =
        some { count := 100, resetAt := R } := by
      simp [upd]
    have h2 : ¬ (0 : Int) ≥ maxRequestsPerIP := by rw [hM]; omega
    simp [limitByIP, hst, hlater, h2]
  refine ⟨hfin1, by rw [hr3], by rw [hr4], ?_⟩
  rw [hr4]
  simp [upd]

/-- Witness for C7 at concrete instants: 100 requests at instant 0 from a
fresh store are admitted, the 101st (still at instant 0) is rejected, and
a request at instant 700000 (past the boundary 600000) is admitted with
the count restarted to 1. -/
theorem rate_limit_window_witness :
    (runLimiter "1.2.3.4" maxRequestsPerIP requestLimitWindowMs
      (0 :: List.replicate 99 0) (fun _ => none)).1 =
      List.replicate 100 true ∧
    (limitByIP "1.2.3.4" maxRequestsPerIP requestLimitWindowMs 0
      (runLimiter "1.2.3.4" maxRequestsPerIP requestLimitWindowMs
        (0 :: List.replicate 99 0) (fun _ => none)).2).1 = false ∧
    (limitByIP "1.2.3.4" maxRequestsPerIP requestLimitWindowMs 700000
      (limitByIP "1.2.3.4" maxRequestsPerIP requestLimitWindowMs 0
        (runLimiter "1.2.3.4" maxRequestsPerIP requestLimitWindowMs
          (0 :: List.replicate 99 0) (fun _ => none)).2).2).1 = true ∧
    (limitByIP "1.2.3.4" maxRequestsPerIP requestLimitWindowMs 700000
      (limitByIP "1.2.3.4" maxRequestsPerIP requestLimitWindowMs 0
        (runLimiter "1.2.3.4" maxRequestsPerIP requestLimitWindowMs
          (0 :: List.replicate 99 0) (fun _ => none)).2).2).2 "1.2.3.4" =
      some { count := 1, resetAt := 700000 + requestLimitWindowMs } :=
  rate_limit_window "1.2.3.4" 0 (List.replicate 99 0) 0 700000
    (fun _ => none) rfl (by decide) (by decide) (by decide) (by decide)

/-- Counterexample to claim C8 as stated: with recent count 25 (not
stale) and base complexity 1, the adjusted complexity is 1, not
1 × 1.2 = 1.2 — the `int64(...)` conversion truncates, so "equals B × 1.2
exactly" fails for bases that are not multiples of 5. -/
theorem complexity_times_factor_cex :
    ¬ (((getAdjustedComplexity stCount25 "1.2.3.4" 1 1000).1 : ℚ) =
        (1 : ℚ) * (6 / 5)) := by
  have hval : (getAdjustedComplexity stCount25 "1.2.3.4" 1 1000).1 = 1 := by
    decide
  rw [hval]
  norm_num

/-- Claim C8, amended part (proved): with a pre-increment recent count of
25 for the address (and the entry not stale), the adjusted complexity is
the truncation of B × 1.2 — that is `(B * 12) / 10` (the scaling factor
`1 + floor(25/10)·0.1 = 1.2` applied in exact arithmetic, then truncated
to an integer); when B is a multiple of 5 this equals B × 1.2 exactly, as
in the spec's example 50000 → 60000. -/
theorem complexity_scale_at_25 (st : ServerState) (ip : String)
    (B now t0 : Int) (hc : st.ipRequestCount ip = some 25)
    (ht : st.ipLastRequest ip = some t0)
    (hfresh : now - t0 ≤ fiveMinutesMs) :
    (getAdjustedComplexity st ip B now).1 = (B * 12) / 10 ∧
    (5 ∣ B → ((getAdjustedComplexity st ip B now).1 : ℚ) =
      (B : ℚ) * (6 / 5)) := by
  have hmain : (getAdjustedComplexity st ip B now).1 = (B * 12) / 10 := by
    have hns : ¬ now - t0 > fiveMinutesMs := by omega
    have h2510 : (25 : Int) / 10 = 2 := by decide
    simp [getAdjustedComplexity, hc, ht, hns, h2510]
  refine ⟨hmain, ?_⟩
  intro hdvd
  obtain ⟨m, hm⟩ := hdvd
  have hint : (B * 12) / 10 = 6 * m := by
    subst hm
    omega
  rw [hmain, hint, hm]
  push_cast
  ring

/-- Witness for the amended claim C8 at the spec's own example: base
complexity 50000 with recent count 25 yields 60000 = 50000 × 1.2. -/
theorem complexity_scale_at_25_witness :
    ((getAdjustedComplexity stCount25 "1.2.3.4" 50000 1000).1 =
      (50000 * 12) / 10 ∧
    (5 ∣ (50000 : Int) →
      ((getAdjustedComplexity stCount25 "1.2.3.4" 50000 1000).1 : ℚ) =
        (50000 : ℚ) * (6 / 5))) ∧
    ((50000 : Int) * 12) / 10 = 60000 :=
  ⟨complexity_scale_at_25 stCount25 "1.2.3.4" 50000 1000 1000 (by decide)
    (by decide) (by decide), by decide⟩

/-- Claim C3 (confirmed): a run of the periodic sweep at instant `t`
removes a recorded replay entry if and only if its stored expiry value has
already passed (`val < t`); in particular an entry whose stored expiry has
not yet passed (`t ≤ val`) is retained by the sweep, so retention never
falls short of the stored expiry. -/
theorem sweep_removes_iff_expired (cfg : Config) (env : Env)
    (st : ServerState) (t : Int) (id : String) (val : Int)
    (h : st.solved id = some val) :
    ((step cfg env st (.sweep t)).solved id = none ↔ val < t) ∧
    (t ≤ val → (step cfg env st (.sweep t)).solved id = some val) := by
  simp only [step, cleanupExpired, h]
  constructor
  · by_cases hv : val < t <;> simp [hv]
  · intro ht
    have hv : ¬ val < t := by omega
    simp [hv]

/-- Witness for C3 at a concrete entry: the entry `("c", 5)` is removed by
a sweep at instant 10 and retained by a sweep at instant 3. -/
theorem sweep_removes_iff_expired_witness :
    (step cfgC envC stSweep (.sweep 10)).solved "c" = none ∧
    (step cfgC envC stSweep (.sweep 3)).solved "c" = some 5 := by
  refine ⟨?_, ?_⟩
  · exact (sweep_removes_iff_expired cfgC envC stSweep 10 "c" 5 rfl).1.mpr
      (by decide)
  · exact (sweep_removes_iff_expired cfgC envC stSweep 3 "c" 5 rfl).2
      (by decide)

/-- Claim C5 (confirmed): a well-formed solution payload that the
collaborator verifies, submitted while its identifier is not yet in the
replay set, is answered `{code:200, message:"OK"}` and its identifier is
recorded; any subsequent submission of the identical payload, in any
state where that identifier is still recorded (i.e. before the sweep
removes it), is rejected 409 "Challenge already solved" with the state
returned unchanged (no stats mutated) and with an outcome independent of
the PoW collaborator (the same for every `verifySol` oracle — it is never
consulted). -/
theorem verify_once_then_replay (env : Env) (st : ServerState)
    (apiKey : String) (now : Int) (body : String) (id : String) (e : Int)
    (hparse : parseVerify env (trimSpace body) = .ok id e)
    (hfresh : st.solved id = none)
    (hver : env.verifySol (trimSpace body) now = some true) :
    (handleVerify env st apiKey now body).1 =
      .reply { status := 200, code := 200, message := "OK" } ∧
    (handleVerify env st apiKey now body).2.solved id = some e ∧
    ∀ (vs : String → Int → Option Bool) (st2 : ServerState)
      (apiKey2 : String) (now2 : Int), st2.solved id ≠ none →
      handleVerify { env with verifySol := vs } st2 apiKey2 now2 body =
        (.reply (writeErrorResponse "Challenge already solved" 409), st2) := by
  have hfresh' : (st.solved id).isSome = false := by simp [hfresh]
  refine ⟨?_, ?_, ?_⟩
  · simp [handleVerify, hparse, hfresh', hver]
  · simp [handleVerify, hparse, hfresh', hver, upd]
  · intro vs st2 apiKey2 now2 h2
    have hparse2 : parseVerify { env with verifySol := vs }
        (trimSpace body) = .ok id e := hparse
    have h2' : (st2.solved id).isSome = true :=
      Option.isSome_iff_ne_none.mpr h2
    simp [handleVerify, hparse2, h2']

/-- Witness for C5: the concrete body `"BODY"` verifies once with 200/OK,
records `("c", 99)`, and an identical resubmission at a later instant is
answered 409 with the state unchanged. -/
theorem verify_once_then_replay_witness :
    (handleVerify envC freshState "vrty_k" 0 "BODY").1 =
      .reply { status := 200, code := 200, message := "OK" } ∧
    (handleVerify envC freshState "vrty_k" 0 "BODY").2.solved "c" =
      some 99 ∧
    handleVerify envC (handleVerify envC freshState "vrty_k" 0 "BODY").2
        "vrty_k" 7 "BODY" =
      (.reply (writeErrorResponse "Challenge already solved" 409),
        (handleVerify envC freshState "vrty_k" 0 "BODY").2) := by
  obtain ⟨h1, h2, h3⟩ := verify_once_then_replay envC freshState "vrty_k"
    0 "BODY" "c" 99 (by decide) rfl (by decide)
  refine ⟨h1, h2, ?_⟩
  exact h3 envC.verifySol (handleVerify envC freshState "vrty_k" 0 "BODY").2
    "vrty_k" 7 (by decide)

/-- Claim C6 (confirmed): for a registered credential (with the
recognizable ticket head), when its allowed-origin list has no wildcard
the request is admitted iff the Origin header is present and exactly
equals a registered origin; an absent Origin header is rejected 403
(fail-closed); and a wildcard entry admits any present origin. -/
theorem origin_admission (cfg : Config) (k origin : String)
    (allowed : List String) (hk : cfg.apiKeys k = some allowed)
    (hp : strHasPre "vrty_" k = true) :
    ("*" ∉ allowed →
      (apiKeyCheck cfg k origin = none ↔
        origin ≠ "" ∧ origin ∈ allowed)) ∧
    (origin = "" →
      apiKeyCheck cfg k origin =
        some (writeErrorResponse "Invalid origin" 403)) ∧
    ("*" ∈ allowed → origin ≠ "" → apiKeyCheck cfg k origin = none) := by
  have hne : k ≠ "" := by
    intro he
    rw [he] at hp
    exact absurd hp (by decide)
  have hmain : apiKeyCheck cfg k origin =
      if apiKeyCheck.validOrigin origin allowed then none
      else some (writeErrorResponse "Invalid origin" 403) := by
    simp [apiKeyCheck, hne, hp, hk]
  have hval : apiKeyCheck.validOrigin origin allowed = true ↔
      origin ≠ "" ∧ ∃ a ∈ allowed, origin = a ∨ a = "*" := by
    by_cases ho : origin = ""
    · simp [apiKeyCheck.validOrigin, ho]
    · simp [apiKeyCheck.validOrigin, ho, List.any_eq_true]
  refine ⟨?_, ?_, ?_⟩
  · intro hstar
    rw [hmain]
    by_cases hv : apiKeyCheck.validOrigin origin allowed = true
    · simp only [hv, if_true]
      obtain ⟨ho, a, ha, hor⟩ := hval.mp hv
      rcases hor with hor | hor
      · simp only [true_iff]
        exact ⟨ho, hor ▸ ha⟩
      · exact absurd (hor ▸ ha) hstar
    · simp only [Bool.not_eq_true] at hv
      simp only [hv, Bool.false_eq_true, if_false]
      constructor
      · intro hcon
        exact absurd hcon (by simp)
      · intro ⟨ho, hm⟩
        have : apiKeyCheck.validOrigin origin allowed = true :=
          hval.mpr ⟨ho, origin, hm, Or.inl rfl⟩
        rw [hv] at this
        exact absurd this (by decide)
  · intro ho
    have hv : apiKeyCheck.validOrigin origin allowed = false := by
      simp [apiKeyCheck.validOrigin, ho]
    rw [hmain, hv]
    simp
  · intro hstar ho
    have hv : apiKeyCheck.validOrigin origin allowed = true :=
      hval.mpr ⟨ho, "*", hstar, Or.inr rfl⟩
    rw [hmain, hv]
    simp

/-- Witness for C6 at the concrete registry of `cfgC` (key `"vrty_k"`,
origins `["http://a"]`, no wildcard): the matching origin is admitted, the
absent origin is rejected 403. -/
theorem origin_admission_witness :
    (("*" ∉ ["http://a"] →
      (apiKeyCheck cfgC "vrty_k" "http://a" = none ↔
        "http://a" ≠ "" ∧ "http://a" ∈ ["http://a"])) ∧
    ("http://a" = "" →
      apiKeyCheck cfgC "vrty_k" "http://a" =
        some (writeErrorResponse "Invalid origin" 403)) ∧
    ("*" ∈ ["http://a"] → "http://a" ≠ "" →
      apiKeyCheck cfgC "vrty_k" "http://a" = none)) ∧
    (("*" ∉ ["http://a"] →
      (apiKeyCheck cfgC "vrty_k" "" = none ↔
        "" ≠ "" ∧ "" ∈ ["http://a"])) ∧
    ("" = "" →
      apiKeyCheck cfgC "vrty_k" "" =
        some (writeErrorResponse "Invalid origin" 403)) ∧
    ("*" ∈ ["http://a"] → "" ≠ "" →
      apiKeyCheck cfgC "vrty_k" "" = none)) :=
  ⟨origin_admission cfgC "vrty_k" "http://a" ["http://a"] rfl (by decide),
   origin_admission cfgC "vrty_k" "" ["http://a"] rfl (by decide)⟩

/-- Claim C2 (code_bug): the error-body code does not match the HTTP
status.  A request with a missing credential is answered with HTTP status
401 but body code 400 (`writeErrorResponse` hard-codes `Code: 400`), and a
request whose solution fails PoW verification is answered with HTTP status
200 (the failure branch of handleVerifyChallenge never calls
`WriteHeader`) with body code 400 — not with HTTP status 400 as the claim
states. -/
theorem error_status_body_mismatch :
    (processRequest cfgC envC freshState reqNoKey .getChallenge).1 =
      .reply { status := 401, code := 400, message := "Missing API key" } ∧
    (processRequest cfgC envC freshState reqC (.verifyChallenge "BODYF")).1 =
      .reply { status := 200, code := 400, message := "Invalid payload" } := by
  constructor <;> rfl

/-- Claim C9 (code_bug): the verification handler is not total over
malformed input — a well-formed base64 JSON payload whose `salt` field is
absent reaches the unchecked type assertion `payload["salt"].(string)` and
the handler panics (chi's Recoverer middleware turns this into a 500, not
the PayloadError 400 the claim states).  `"BODYNS"` decodes to the
document `{"challenge":"abc"}`. -/
theorem missing_salt_panics :
    parseVerify envC "BODYNS" = .panicked ∧
    (processRequest cfgC envC freshState reqC (.verifyChallenge "BODYNS")).1 =
      Outcome.panicked := by
  constructor <;> rfl

end Verity
